import Mathlib

/-!
# Verification of the trade-copier core against its specification

Shallow embedding of the trade-copier service (scaling engine, retry policy,
circuit breaker, order executor, key store, websocket listener, dispatcher)
and proofs settling the frozen claims C1..C10.

Machine floats of the source are modelled as exact rationals; wall-clock
instants as rationals (seconds) or integers (milliseconds / epoch seconds).
-/

namespace TradeCopier

/-! ## Python numeric helpers

`pyInt` models Python `int(x)` (truncation toward zero), `pythonRound` models
Python `round(x)` (round half to even), `pyMod1` models Python `x % 1`
(result in `[0,1)`, carrying the sign of the divisor), `quantizeDown` models
`Decimal.quantize(..., rounding=ROUND_DOWN)` (toward zero at `10^-d`). -/

def pyInt (q : ℚ) : ℤ :=
  if 0 ≤ q then ⌊q⌋ else -⌊-q⌋

def pythonRound (q : ℚ) : ℤ :=
  let f := ⌊q⌋
  let r := q - (f : ℚ)
  if r < 1/2 then f
  else if 1/2 < r then f + 1
  else if f % 2 = 0 then f else f + 1

def pyMod1 (q : ℚ) : ℚ := q - (⌊q⌋ : ℚ)

def quantizeDown (d : ℕ) (q : ℚ) : ℚ := ((pyInt (q * 10 ^ d) : ℚ)) / 10 ^ d

/-- Python `str.lower()`; agrees with CPython on the ASCII side strings
(`"buy"`, `"sell"`, ...) the service compares against. -/
def pyLower (s : String) : String := ⟨s.data.map Char.toLower⟩

/-- Python `value or default` for optional numeric arguments: `None` and `0`
both fall back to the default (`config/settings.py` defaults are applied this
way in `retry_policy.py`). -/
def pyOrNat (v : Option ℕ) (d : ℕ) : ℕ :=
  match v with
  | none => d
  | some n => if n = 0 then d else n

def pyOrRat (v : Option ℚ) (d : ℚ) : ℚ :=
  match v with
  | none => d
  | some q => if q = 0 then d else q

/-! ## Settings (`service/config/settings.py`), fields used by the core -/

structure Settings where
  minOrderSize : ℚ := 1/100
  minNotionalValue : ℚ := 1
  allowFractionalShares : Bool := true
  failureThreshold : ℕ := 5
  circuitTimeout : ℚ := 300
  maxRetryAttempts : ℕ := 3
  retryInitialDelay : ℚ := 1
  retryMaxDelay : ℚ := 10
  retryExponentialBase : ℕ := 2
  retryJitter : Bool := true
  latencyCriticalThreshold : ℤ := 200
deriving DecidableEq

/-! ## Scaling engine (`service/core/scaling_engine.py`) -/

/-- `ScalingEngine._equity_based_scaling`. -/
def equityBasedScaling (masterQty clientEquity masterEquity riskMultiplier : ℚ) : ℚ :=
  if masterEquity ≤ 0 then 0
  else masterQty * (clientEquity / masterEquity) * riskMultiplier

/-- The data `ScalingEngine.calculate_client_quantity` observes: its arguments
plus the account/position values fetched from the brokerage inside the call
(`client_equity`, `client_buying_power`, `client_owned_qty`,
`master_remaining`, the result of `_check_fractional_support`). A failed
`get_open_position` lookup is already folded into a `0` quantity, as in the
source's `except` branches. -/
structure ScalingInput where
  masterQty : ℚ
  side : String
  clientEquity : ℚ
  clientBuyingPower : ℚ
  clientOwnedQty : ℚ
  masterRemaining : ℚ
  tradeDirection : String := "both"
  riskMultiplier : ℚ := 1
  masterEquity : ℚ
  supportsFractional : Bool
  currentPrice : Option ℚ := none
deriving DecidableEq

/-- Rounding of the scaled quantity (fractional branch quantizes down to two
decimals, whole-share branch applies `float(int(...))`). -/
def roundFinalQty (st : Settings) (inp : ScalingInput) (scaledQty : ℚ) : ℚ :=
  if inp.supportsFractional && st.allowFractionalShares
  then quantizeDown 2 scaledQty
  else ((pyInt scaledQty : ℤ) : ℚ)

/-- The notional gate (`if current_price: ... notional < min_notional_value`);
Python truthiness makes a `0.0` price skip the gate like `None`. -/
def notionalGate (st : Settings) (inp : ScalingInput) (scaledQty : ℚ) : Bool :=
  match inp.currentPrice with
  | some price => price ≠ 0 && decide (scaledQty * price < st.minNotionalValue)
  | none => false

/-- The buying-power guard at the end of `calculate_client_quantity`. -/
def buyingPowerGuard (st : Settings) (inp : ScalingInput) (finalQty : ℚ) : Option ℚ :=
  match inp.currentPrice with
  | some price =>
    if price ≠ 0 then
      if inp.clientBuyingPower < finalQty * price then
        let reduced : ℚ := ((pyInt (inp.clientBuyingPower / price * (95/100)) : ℤ) : ℚ)
        if reduced < st.minOrderSize then none else some reduced
      else some finalQty
    else some finalQty
  | none => some finalQty

/-- Common tail of `calculate_client_quantity` (minimum-size gate, notional
gate, fractional rounding, buying-power guard). -/
def scalingGatesTail (st : Settings) (inp : ScalingInput) (scaledQty : ℚ) : Option ℚ :=
  if scaledQty < st.minOrderSize then none
  else if notionalGate st inp scaledQty then none
  else buyingPowerGuard st inp (roundFinalQty st inp scaledQty)

/-- The scaled quantity of the proportional branch (the source's local
`scaled_qty`). -/
def scaledQtyOf (inp : ScalingInput) : ℚ :=
  equityBasedScaling inp.masterQty inp.clientEquity inp.masterEquity inp.riskMultiplier

/-- The trade-direction filter (scaling_engine.py:164-208): classify the fill
as long or short from `side` and `master_remaining` and skip on mismatch with
the client's `trade_direction` preference. -/
abbrev tradeDirectionSkips (inp : ScalingInput) : Prop :=
  inp.tradeDirection ≠ "both" ∧
    ((inp.tradeDirection = "long" ∧
        ¬ ((pyLower inp.side = "buy" ∧ 0 ≤ inp.masterRemaining) ∨
           (pyLower inp.side = "sell" ∧ 0 < inp.masterRemaining))) ∨
      (inp.tradeDirection = "short" ∧
        ¬ ((pyLower inp.side = "buy" ∧ inp.masterRemaining < 0) ∨
           (pyLower inp.side = "sell" ∧ inp.masterRemaining ≤ 0))))

/-- CASE 1 / 1B (scaling_engine.py:213-260): master full exit with a nonzero
client position. `some r` models an early `return r`; `none` falls through. -/
def fullExitAction (inp : ScalingInput) : Option (Option ℚ) :=
  if inp.masterRemaining = 0 ∧ inp.clientOwnedQty ≠ 0 then
    if pyLower inp.side = "sell" ∧ 0 < inp.clientOwnedQty then
      some (some (quantizeDown 6 inp.clientOwnedQty))
    else if pyLower inp.side = "buy" ∧ inp.clientOwnedQty < 0 then
      some (some (quantizeDown 6 |inp.clientOwnedQty|))
    else if pyLower inp.side = "buy" ∧ 0 < inp.clientOwnedQty then some none
    else if pyLower inp.side = "sell" ∧ inp.clientOwnedQty < 0 then some none
    else none
  else none

/-- CASE 1D (scaling_engine.py:280-337): master partially closing while the
client holds the opposite side or nothing; both branches `return None`. -/
abbrev partialCloseMismatchSkips (inp : ScalingInput) : Prop :=
  (pyLower inp.side = "buy" ∧ inp.masterRemaining < 0 ∧
      (0 < inp.clientOwnedQty ∨ inp.clientOwnedQty = 0)) ∨
  (pyLower inp.side = "sell" ∧ 0 < inp.masterRemaining ∧
      (inp.clientOwnedQty < 0 ∨ inp.clientOwnedQty = 0))

/-- The "dust" test guarding the short-sell branch (scaling_engine.py:353),
`0 < client_owned_qty < 1 or (client_owned_qty % 1 > 0.0001)`. -/
abbrev dustCondition (inp : ScalingInput) : Prop :=
  (0 < inp.clientOwnedQty ∧ inp.clientOwnedQty < 1) ∨
    1/10000 < pyMod1 inp.clientOwnedQty

/-- `ScalingEngine.calculate_client_quantity` (scaling_engine.py:112-484):
direction filter, smart-replication cases 1/1B/1C/1D, then the proportional
branch with the short-sell handling and the gate tail. `none` models a
`return None` skip. -/
def calculateClientQuantity (st : Settings) (inp : ScalingInput) : Option ℚ :=
  if tradeDirectionSkips inp then none
  else match fullExitAction inp with
  | some r => r
  | none =>
    if inp.masterRemaining = 0 ∧ inp.clientOwnedQty = 0 then none
    else if partialCloseMismatchSkips inp then none
    else if pyLower inp.side = "sell" ∧ inp.clientOwnedQty - scaledQtyOf inp < -(1/10000) then
      if dustCondition inp then some inp.clientOwnedQty
      else if ((pythonRound (scaledQtyOf inp) : ℤ) : ℚ) ≤ 0 then none
      else some ((pythonRound (scaledQtyOf inp) : ℤ) : ℚ)
    else
      scalingGatesTail st inp (scaledQtyOf inp)

/-- The dispatcher's acceptance test for a scaled quantity
(`trade_dispatcher.py:127`, `if scaled_qty and scaled_qty > 0`); `none` and a
falsy `0.0` are both discarded. -/
def dispatchAccepts : Option ℚ → Bool
  | none => false
  | some v => v ≠ 0 && decide (0 < v)

/-! ## Claim C1: master full exit never opens or grows a position on a flat
or opposite-side client -/

lemma fullExitAction_flat (inp : ScalingInput) (h0 : inp.clientOwnedQty = 0) :
    fullExitAction inp = none := by
  unfold fullExitAction
  rw [if_neg]
  rintro ⟨-, hne⟩
  exact hne h0

lemma fullExitAction_sell_clientShort (inp : ScalingInput)
    (hmr : inp.masterRemaining = 0) (hs : pyLower inp.side = "sell")
    (hq : inp.clientOwnedQty < 0) :
    fullExitAction inp = some none := by
  unfold fullExitAction
  rw [if_pos ⟨hmr, ne_of_lt hq⟩]
  rw [if_neg (by rintro ⟨-, h⟩; linarith)]
  rw [if_neg (by rintro ⟨hb, -⟩; exact absurd (hs ▸ hb) (by decide))]
  rw [if_neg (by rintro ⟨hb, -⟩; exact absurd (hs ▸ hb) (by decide))]
  rw [if_pos ⟨hs, hq⟩]

lemma fullExitAction_buy_clientLong (inp : ScalingInput)
    (hmr : inp.masterRemaining = 0) (hs : pyLower inp.side = "buy")
    (hq : 0 < inp.clientOwnedQty) :
    fullExitAction inp = some none := by
  unfold fullExitAction
  rw [if_pos ⟨hmr, ne_of_gt hq⟩]
  rw [if_neg (by rintro ⟨hb, -⟩; exact absurd (hs ▸ hb) (by decide))]
  rw [if_neg (by rintro ⟨-, h⟩; linarith)]
  rw [if_pos ⟨hs, hq⟩]

/-- Claim C1: whenever `master_remaining = 0` and the client is flat, or short
while the master's side is `sell`, or long while the master's side is `buy`,
`calculate_client_quantity` returns `None`; in particular it never returns a
positive quantity that would open or grow a position on such a client. -/
theorem fullExit_skips_flat_or_opposite_client
    (st : Settings) (inp : ScalingInput)
    (hmr : inp.masterRemaining = 0)
    (hpos : inp.clientOwnedQty = 0 ∨
      (pyLower inp.side = "sell" ∧ inp.clientOwnedQty < 0) ∨
      (pyLower inp.side = "buy" ∧ 0 < inp.clientOwnedQty)) :
    calculateClientQuantity st inp = none := by
  unfold calculateClientQuantity
  by_cases hdir : tradeDirectionSkips inp
  · rw [if_pos hdir]
  · rw [if_neg hdir]
    rcases hpos with h0 | ⟨hs, hq⟩ | ⟨hs, hq⟩
    · rw [fullExitAction_flat inp h0]
      dsimp only
      rw [if_pos ⟨hmr, h0⟩]
    · rw [fullExitAction_sell_clientShort inp hmr hs hq]
    · rw [fullExitAction_buy_clientLong inp hmr hs hq]

/-- Witness for C1: the master fully exits a long by selling while the client
is short 5 shares; the call is skipped. -/
theorem fullExit_skips_flat_or_opposite_client_witness :
    calculateClientQuantity {}
      { masterQty := 100, side := "sell", clientEquity := 10000,
        clientBuyingPower := 10000, clientOwnedQty := -5, masterRemaining := 0,
        masterEquity := 100000, supportsFractional := true,
        currentPrice := some 50 } = none :=
  fullExit_skips_flat_or_opposite_client {} _ rfl
    (Or.inr (Or.inl ⟨by decide, by norm_num⟩))

/-! ## Claim C4 (corrected): short-sell branch and the "dust" rule -/

/-- Counterexample input for C4: the master adds to a short while the client
is fractionally SHORT 2.5 shares; `client_owned_qty % 1` is `0.5` in Python,
so the dust branch fires and the call returns the client's own (negative)
quantity instead of the rounded whole-share short the claim predicts. -/
def shortDust_cex_input : ScalingInput :=
  { masterQty := 10, side := "sell", clientEquity := 10000, clientBuyingPower := 10000,
    clientOwnedQty := -(5/2), masterRemaining := -10, masterEquity := 100000,
    supportsFractional := true, currentPrice := some 50 }

/-- Counterexample to C4 as stated: a sell whose result would be a short
increase (`client_current - scaled < 0`) on a client that holds no fractional
long (it is short 2.5), yet `calculate_client_quantity` returns the client's
current fractional quantity `-2.5` - neither `None` nor the whole-share
rounding of the scaled quantity (`round(1) = 1`) required by the claim. -/
theorem shortSell_dust_cex :
    calculateClientQuantity {} shortDust_cex_input = some (-(5/2)) ∧
    shortDust_cex_input.clientOwnedQty - scaledQtyOf shortDust_cex_input < 0 ∧
    ¬ (0 < shortDust_cex_input.clientOwnedQty) ∧
    calculateClientQuantity {} shortDust_cex_input ≠
      some ((pythonRound (scaledQtyOf shortDust_cex_input) : ℤ) : ℚ) ∧
    calculateClientQuantity {} shortDust_cex_input ≠ none := by
  with_unfolding_all decide

/-- Claim C4 (amended): for a sell that reaches the proportional branch
(`master_remaining < 0`, or `master_remaining > 0` with a long client) whose
result would be a short open or increase by more than the `0.0001` tolerance:
if the client's current quantity lies strictly between 0 and 1 or has a
Python fractional part (`qty % 1`) above `0.0001` - which also happens for
fractional SHORT positions - the function returns exactly the client's
current quantity; otherwise it rounds the scaled quantity half-to-even and
returns `None` if the rounded value is `<= 0`. -/
theorem shortSell_dust_amended
    (st : Settings) (inp : ScalingInput)
    (hs : pyLower inp.side = "sell")
    (hdir : inp.tradeDirection = "both")
    (hreach : inp.masterRemaining < 0 ∨
      (0 < inp.masterRemaining ∧ 0 < inp.clientOwnedQty))
    (hshort : inp.clientOwnedQty - scaledQtyOf inp < -(1/10000)) :
    calculateClientQuantity st inp =
      if dustCondition inp then some inp.clientOwnedQty
      else if ((pythonRound (scaledQtyOf inp) : ℤ) : ℚ) ≤ 0 then none
      else some ((pythonRound (scaledQtyOf inp) : ℤ) : ℚ) := by
  have hmr0 : inp.masterRemaining ≠ 0 := by
    rcases hreach with h | ⟨h, -⟩ <;> exact fun he => by rw [he] at h; linarith
  unfold calculateClientQuantity
  rw [if_neg (by rintro ⟨hne, -⟩; exact hne hdir)]
  have hfe : fullExitAction inp = none := by
    unfold fullExitAction
    rw [if_neg]
    rintro ⟨h0, -⟩
    exact hmr0 h0
  rw [hfe]
  dsimp only
  rw [if_neg (by rintro ⟨h0, -⟩; exact hmr0 h0)]
  rw [if_neg ?hpcm]
  case hpcm =>
    rintro (⟨hb, -, -⟩ | ⟨-, hmrp, hq⟩)
    · exact absurd (hs ▸ hb) (by decide)
    · rcases hreach with h | ⟨-, hop⟩
      · linarith
      · rcases hq with h | h <;> linarith
  rw [if_pos ⟨hs, hshort⟩]

/-- Witness input for the amended C4: client long 0.3 shares of dust. -/
def shortDust_witness_input : ScalingInput :=
  { masterQty := 10, side := "sell", clientEquity := 10000, clientBuyingPower := 10000,
    clientOwnedQty := 3/10, masterRemaining := -10, masterEquity := 100000,
    supportsFractional := true, currentPrice := some 50 }

/-- Witness for the amended C4: the dust rule sells exactly the 0.3-share
fractional long, flattening the client to zero. -/
theorem shortSell_dust_amended_witness :
    calculateClientQuantity {} shortDust_witness_input = some (3/10) := by
  rw [shortSell_dust_amended {} shortDust_witness_input (by decide) rfl
    (Or.inl (by norm_num [shortDust_witness_input]))
    (by with_unfolding_all decide)]
  with_unfolding_all decide

/-! ## Claim C10: whole-share buys below one share floor to `0.0`, skipped
only by the dispatcher -/

lemma pyInt_eq_zero (q : ℚ) (h1 : -1 < q) (h2 : q < 1) : pyInt q = 0 := by
  unfold pyInt
  split_ifs with h
  · exact Int.floor_eq_zero_iff.mpr ⟨h, h2⟩
  · push_neg at h
    have hz : ⌊-q⌋ = 0 := Int.floor_eq_zero_iff.mpr ⟨by linarith, by linarith⟩
    rw [hz]
    rfl

/-- Claim C10: for a buy without fractional support (symbol not fractionable
or fractional shares disabled) that passes the minimum-size and notional
gates with `min_order_size <= scaled_qty < 1`, `calculate_client_quantity`
floors the quantity and returns `0.0` (not `None`); the order is then dropped
only by the dispatcher's strict-positivity test. (`0 <= min_order_size`
reflects the `ge=0.0001` validator on the settings field.) -/
theorem wholeShareBuy_floorsToZero
    (st : Settings) (inp : ScalingInput)
    (hs : pyLower inp.side = "buy")
    (hdir : inp.tradeDirection = "both")
    (hmr : 0 < inp.masterRemaining)
    (hms : 0 ≤ st.minOrderSize)
    (hmin : st.minOrderSize ≤ scaledQtyOf inp)
    (hlt1 : scaledQtyOf inp < 1)
    (hfrac : (inp.supportsFractional && st.allowFractionalShares) = false)
    (hnotional : notionalGate st inp (scaledQtyOf inp) = false)
    (hbp : 0 ≤ inp.clientBuyingPower) :
    calculateClientQuantity st inp = some 0 ∧
    dispatchAccepts (calculateClientQuantity st inp) = false := by
  have hmr0 : inp.masterRemaining ≠ 0 := ne_of_gt hmr
  have hmain : calculateClientQuantity st inp = some 0 := by
    unfold calculateClientQuantity
    rw [if_neg (by rintro ⟨hne, -⟩; exact hne hdir)]
    have hfe : fullExitAction inp = none := by
      unfold fullExitAction
      rw [if_neg]
      rintro ⟨h0, -⟩
      exact hmr0 h0
    rw [hfe]
    dsimp only
    rw [if_neg (by rintro ⟨h0, -⟩; exact hmr0 h0)]
    rw [if_neg ?hpcm]
    case hpcm =>
      rintro (⟨-, hneg, -⟩ | ⟨hb, -, -⟩)
      · linarith
      · exact absurd (hs ▸ hb) (by decide)
    rw [if_neg (by rintro ⟨hb, -⟩; exact absurd (hs ▸ hb) (by decide))]
    unfold scalingGatesTail
    rw [if_neg (not_lt.mpr hmin)]
    rw [if_neg (by simp [hnotional])]
    have hround : roundFinalQty st inp (scaledQtyOf inp) = 0 := by
      unfold roundFinalQty
      rw [hfrac]
      simp only [Bool.false_eq_true, if_false]
      rw [pyInt_eq_zero _ (by linarith) hlt1]
      rfl
    rw [hround]
    unfold buyingPowerGuard
    cases hcp : inp.currentPrice with
    | none => rfl
    | some p =>
      dsimp only
      by_cases hp : p ≠ 0
      · rw [if_pos hp, zero_mul, if_neg (not_lt.mpr hbp)]
      · rw [if_neg hp]
  exact ⟨hmain, by rw [hmain]; rfl⟩

/-- Witness input for C10: the scaled quantity is `0.05` on a whole-share
symbol, notional `0.05 * 100 = 5` passes the `$1` gate. -/
def wholeShareBuy_witness_input : ScalingInput :=
  { masterQty := 5, side := "buy", clientEquity := 1000, clientBuyingPower := 1000,
    clientOwnedQty := 0, masterRemaining := 5, masterEquity := 100000,
    supportsFractional := false, currentPrice := some 100 }

/-- Witness for C10. -/
theorem wholeShareBuy_floorsToZero_witness :
    calculateClientQuantity {} wholeShareBuy_witness_input = some 0 ∧
    dispatchAccepts (calculateClientQuantity {} wholeShareBuy_witness_input) = false :=
  wholeShareBuy_floorsToZero {} wholeShareBuy_witness_input (by decide) rfl
    (by norm_num [wholeShareBuy_witness_input]) (by norm_num)
    (by with_unfolding_all decide) (by with_unfolding_all decide)
    (by with_unfolding_all decide) (by with_unfolding_all decide)
    (by norm_num [wholeShareBuy_witness_input])



/-! ## Retry policy (`service/core/retry_policy.py`) -/

/-- One invocation's behaviour of a function wrapped by `with_retry`:
it returns, or raises an exception in the configured `retryable_exceptions`,
or raises a `NonRetryableError`, or raises any other (unexpected) exception.
The classification mirrors the three `except` arms of the wrapper. -/
inductive Outcome (α ε : Type) where
  | ok (a : α)
  | retryable (e : ε)
  | nonRetryable (e : ε)
  | unexpected (e : ε)

/-- Observable result of one run of the `with_retry` wrapper: the value
returned or the exception finally raised, how many times the wrapped
function was invoked, and the successive `asyncio.sleep` durations. -/
structure RetryRun (α ε : Type) where
  outcome : Except ε α
  invocations : ℕ
  sleeps : List ℚ

/-- `calculate_backoff_delay` (retry_policy.py:55-82):
`delay = min(initial * base ^ attempt, max)`, and with jitter the sleep is
`random.uniform(0, delay)`, modelled as `randSample * delay` for a sample
`randSample ∈ [0, 1]`. -/
def calculateBackoffDelay (attempt : ℕ) (initialDelay maxDelay : ℚ)
    (expBase : ℕ) (jitter : Bool) (randSample : ℚ) : ℚ :=
  let delay := min (initialDelay * (expBase : ℚ) ^ attempt) maxDelay
  if jitter then randSample * delay else delay

/-- The loop of `with_retry`'s `wrapper` (retry_policy.py:118-191), running
from attempt index `attempt` with `left = max_attempts - attempt` retries
still allowed: a retryable failure with no retries left re-raises (the
`attempt >= max_attempts` branch); otherwise it sleeps the backoff delay and
retries; non-retryable and unexpected errors re-raise immediately. -/
def runRetryFrom {α ε : Type} (outcomes : ℕ → Outcome α ε) (rand : ℕ → ℚ)
    (initialDelay maxDelay : ℚ) (expBase : ℕ) (jitter : Bool)
    (attempt : ℕ) (left : ℕ) : RetryRun α ε :=
  match outcomes attempt with
  | .ok a => ⟨.ok a, attempt + 1, []⟩
  | .nonRetryable e => ⟨.error e, attempt + 1, []⟩
  | .unexpected e => ⟨.error e, attempt + 1, []⟩
  | .retryable e =>
    match left with
    | 0 => ⟨.error e, attempt + 1, []⟩
    | l + 1 =>
      let rest := runRetryFrom outcomes rand initialDelay maxDelay expBase jitter (attempt + 1) l
      ⟨rest.outcome, rest.invocations,
        calculateBackoffDelay attempt initialDelay maxDelay expBase jitter (rand attempt) :: rest.sleeps⟩

/-- A full run of a function wrapped by
`with_retry(max_attempts, initial_delay, max_delay, exponential_base, jitter)`:
the Python `for attempt in range(max_attempts + 1)` loop started at 0. -/
def withRetryRun {α ε : Type} (outcomes : ℕ → Outcome α ε) (rand : ℕ → ℚ)
    (maxAttempts : ℕ) (initialDelay maxDelay : ℚ) (expBase : ℕ) (jitter : Bool) :
    RetryRun α ε :=
  runRetryFrom outcomes rand initialDelay maxDelay expBase jitter 0 maxAttempts

section RetryLemmas

variable {α ε : Type} (o : ℕ → Outcome α ε) (r : ℕ → ℚ)
variable (i m : ℚ) (b : ℕ) (j : Bool)

lemma runRetryFrom_eq_ok {attempt left : ℕ} {a : α} (ho : o attempt = Outcome.ok a) :
    runRetryFrom o r i m b j attempt left = ⟨Except.ok a, attempt + 1, []⟩ := by
  rw [runRetryFrom.eq_def, ho]

lemma runRetryFrom_eq_nonRetryable {attempt left : ℕ} {e : ε}
    (ho : o attempt = Outcome.nonRetryable e) :
    runRetryFrom o r i m b j attempt left = ⟨Except.error e, attempt + 1, []⟩ := by
  rw [runRetryFrom.eq_def, ho]

lemma runRetryFrom_eq_unexpected {attempt left : ℕ} {e : ε}
    (ho : o attempt = Outcome.unexpected e) :
    runRetryFrom o r i m b j attempt left = ⟨Except.error e, attempt + 1, []⟩ := by
  rw [runRetryFrom.eq_def, ho]

lemma runRetryFrom_eq_retryable_zero {attempt : ℕ} {e : ε}
    (ho : o attempt = Outcome.retryable e) :
    runRetryFrom o r i m b j attempt 0 = ⟨Except.error e, attempt + 1, []⟩ := by
  rw [runRetryFrom.eq_def, ho]

lemma runRetryFrom_eq_retryable_succ {attempt l : ℕ} {e : ε}
    (ho : o attempt = Outcome.retryable e) :
    runRetryFrom o r i m b j attempt (l + 1) =
      ⟨(runRetryFrom o r i m b j (attempt + 1) l).outcome,
        (runRetryFrom o r i m b j (attempt + 1) l).invocations,
        calculateBackoffDelay attempt i m b j (r attempt) ::
          (runRetryFrom o r i m b j (attempt + 1) l).sleeps⟩ := by
  rw [runRetryFrom.eq_def, ho]

lemma runRetryFrom_invocations_le :
    ∀ left attempt, (runRetryFrom o r i m b j attempt left).invocations ≤ attempt + left + 1 := by
  intro left
  induction left with
  | zero =>
    intro attempt
    cases ho : o attempt
    · rw [runRetryFrom_eq_ok o r i m b j ho]
    · rw [runRetryFrom_eq_retryable_zero o r i m b j ho]
    · rw [runRetryFrom_eq_nonRetryable o r i m b j ho]
    · rw [runRetryFrom_eq_unexpected o r i m b j ho]
  | succ l ih =>
    intro attempt
    cases ho : o attempt
    · rw [runRetryFrom_eq_ok o r i m b j ho]; simp
    · rw [runRetryFrom_eq_retryable_succ o r i m b j ho]
      have := ih (attempt + 1)
      simp
      omega
    · rw [runRetryFrom_eq_nonRetryable o r i m b j ho]; simp
    · rw [runRetryFrom_eq_unexpected o r i m b j ho]; simp

lemma runRetryFrom_allRetryable :
    ∀ left attempt,
      (∀ k, attempt ≤ k → k ≤ attempt + left → ∃ e, o k = Outcome.retryable e) →
      ∃ e, o (attempt + left) = Outcome.retryable e ∧
        (runRetryFrom o r i m b j attempt left).outcome = Except.error e ∧
        (runRetryFrom o r i m b j attempt left).invocations = attempt + left + 1 := by
  intro left
  induction left with
  | zero =>
    intro attempt h
    obtain ⟨e, he⟩ := h attempt le_rfl (by omega)
    refine ⟨e, by simpa using he, ?_, ?_⟩
    · rw [runRetryFrom_eq_retryable_zero o r i m b j he]
    · rw [runRetryFrom_eq_retryable_zero o r i m b j he]
  | succ l ih =>
    intro attempt h
    obtain ⟨e, he⟩ := h attempt le_rfl (by omega)
    obtain ⟨e2, he2, ho2, hi2⟩ := ih (attempt + 1) (fun k hk1 hk2 => h k (by omega) (by omega))
    refine ⟨e2, by rw [show attempt + (l+1) = attempt + 1 + l by omega]; exact he2, ?_, ?_⟩
    · rw [runRetryFrom_eq_retryable_succ o r i m b j he]
      exact ho2
    · rw [runRetryFrom_eq_retryable_succ o r i m b j he]
      simp [hi2]
      omega

lemma runRetryFrom_shortCircuit :
    ∀ left attempt k e, attempt ≤ k → k ≤ attempt + left →
      (∀ jx, attempt ≤ jx → jx < k → ∃ e2, o jx = Outcome.retryable e2) →
      (o k = Outcome.nonRetryable e ∨ o k = Outcome.unexpected e) →
      (runRetryFrom o r i m b j attempt left).outcome = Except.error e ∧
      (runRetryFrom o r i m b j attempt left).invocations = k + 1 := by
  intro left
  induction left with
  | zero =>
    intro attempt k e h1 h2 hj hk
    have hke : k = attempt := by omega
    subst hke
    rcases hk with hk | hk
    · rw [runRetryFrom_eq_nonRetryable o r i m b j hk]
      exact ⟨rfl, rfl⟩
    · rw [runRetryFrom_eq_unexpected o r i m b j hk]
      exact ⟨rfl, rfl⟩
  | succ l ih =>
    intro attempt k e h1 h2 hj hk
    by_cases hka : k = attempt
    · subst hka
      rcases hk with hk | hk
      · rw [runRetryFrom_eq_nonRetryable o r i m b j hk]
        exact ⟨rfl, rfl⟩
      · rw [runRetryFrom_eq_unexpected o r i m b j hk]
        exact ⟨rfl, rfl⟩
    · obtain ⟨e2, he2⟩ := hj attempt le_rfl (by omega)
      have hrest := ih (attempt + 1) k e (by omega) (by omega)
        (fun jx hj1 hj2 => hj jx (by omega) hj2) hk
      rw [runRetryFrom_eq_retryable_succ o r i m b j he2]
      exact hrest

lemma runRetryFrom_sleeps :
    ∀ left attempt k d,
      (runRetryFrom o r i m b j attempt left).sleeps[k]? = some d →
      d = calculateBackoffDelay (attempt + k) i m b j (r (attempt + k)) := by
  intro left
  induction left with
  | zero =>
    intro attempt k d hd
    cases ho : o attempt
    · rw [runRetryFrom_eq_ok o r i m b j ho] at hd
      simp at hd
    · rw [runRetryFrom_eq_retryable_zero o r i m b j ho] at hd
      simp at hd
    · rw [runRetryFrom_eq_nonRetryable o r i m b j ho] at hd
      simp at hd
    · rw [runRetryFrom_eq_unexpected o r i m b j ho] at hd
      simp at hd
  | succ l ih =>
    intro attempt k d hd
    cases ho : o attempt
    · rw [runRetryFrom_eq_ok o r i m b j ho] at hd
      simp at hd
    · rw [runRetryFrom_eq_retryable_succ o r i m b j ho] at hd
      cases k with
      | zero =>
        simp at hd
        simp [← hd]
      | succ kk =>
        simp at hd
        have := ih (attempt + 1) kk d hd
        rw [this, show attempt + 1 + kk = attempt + (kk + 1) by omega]
    · rw [runRetryFrom_eq_nonRetryable o r i m b j ho] at hd
      simp at hd
    · rw [runRetryFrom_eq_unexpected o r i m b j ho] at hd
      simp at hd

lemma calculateBackoffDelay_bounds (attempt : ℕ) (rs : ℚ)
    (h0 : 0 ≤ rs) (h1 : rs ≤ 1) (hi : 0 ≤ i) (hm : 0 ≤ m) :
    0 ≤ calculateBackoffDelay attempt i m b j rs ∧
    calculateBackoffDelay attempt i m b j rs ≤ min (i * (b : ℚ) ^ attempt) m := by
  have hd0 : 0 ≤ min (i * (b : ℚ) ^ attempt) m :=
    le_min (mul_nonneg hi (pow_nonneg (by positivity) _)) hm
  unfold calculateBackoffDelay
  split_ifs
  · constructor
    · exact mul_nonneg h0 hd0
    · calc rs * min (i * (b : ℚ) ^ attempt) m
          ≤ 1 * min (i * (b : ℚ) ^ attempt) m :=
            mul_le_mul_of_nonneg_right h1 hd0
        _ = min (i * (b : ℚ) ^ attempt) m := one_mul _
  · exact ⟨hd0, le_rfl⟩

end RetryLemmas

/-- Claim C5: a function wrapped by `with_retry` is invoked at most
`max_attempts + 1` times; if every attempt fails retryably the run performs
exactly `max_attempts + 1` invocations (`max_attempts` of them retries, each
following a retryable failure) and re-raises the last error; a non-retryable
or unexpected error at attempt `k` after retryable failures propagates
immediately with exactly `k + 1` invocations; and every recorded sleep is
nonnegative and at most `min(initial * base ^ k, max)` for its failure index
`k`, jitter drawing uniformly from `[0, delay]`. -/
theorem with_retry_contract {α ε : Type}
    (outcomes : ℕ → Outcome α ε) (rand : ℕ → ℚ) (maxAttempts : ℕ)
    (initialDelay maxDelay : ℚ) (expBase : ℕ) (jitter : Bool)
    (hr0 : ∀ k, 0 ≤ rand k) (hr1 : ∀ k, rand k ≤ 1)
    (hini : 0 ≤ initialDelay) (hmax : 0 ≤ maxDelay) :
    (withRetryRun outcomes rand maxAttempts initialDelay maxDelay expBase jitter).invocations
        ≤ maxAttempts + 1 ∧
    ((∀ k, k ≤ maxAttempts → ∃ e, outcomes k = Outcome.retryable e) →
      ∃ e, outcomes maxAttempts = Outcome.retryable e ∧
        (withRetryRun outcomes rand maxAttempts initialDelay maxDelay expBase jitter).outcome
          = Except.error e ∧
        (withRetryRun outcomes rand maxAttempts initialDelay maxDelay expBase jitter).invocations
          = maxAttempts + 1) ∧
    (∀ k e, k ≤ maxAttempts →
      (∀ jx, jx < k → ∃ e2, outcomes jx = Outcome.retryable e2) →
      (outcomes k = Outcome.nonRetryable e ∨ outcomes k = Outcome.unexpected e) →
      (withRetryRun outcomes rand maxAttempts initialDelay maxDelay expBase jitter).outcome
        = Except.error e ∧
      (withRetryRun outcomes rand maxAttempts initialDelay maxDelay expBase jitter).invocations
        = k + 1) ∧
    (∀ k d,
      (withRetryRun outcomes rand maxAttempts initialDelay maxDelay expBase jitter).sleeps[k]?
        = some d →
      0 ≤ d ∧ d ≤ min (initialDelay * (expBase : ℚ) ^ k) maxDelay) := by
  refine ⟨?_, ?_, ?_, ?_⟩
  · simpa using runRetryFrom_invocations_le outcomes rand initialDelay maxDelay expBase jitter
      maxAttempts 0
  · intro h
    have := runRetryFrom_allRetryable outcomes rand initialDelay maxDelay expBase jitter
      maxAttempts 0 (fun k hk1 hk2 => h k (by omega))
    simpa using this
  · intro k e hk hj hke
    have := runRetryFrom_shortCircuit outcomes rand initialDelay maxDelay expBase jitter
      maxAttempts 0 k e (by omega) (by omega) (fun jx hj1 hj2 => hj jx hj2) hke
    simpa using this
  · intro k d hd
    have hdd := runRetryFrom_sleeps outcomes rand initialDelay maxDelay expBase jitter
      maxAttempts 0 k d hd
    simp at hdd
    rw [hdd]
    exact calculateBackoffDelay_bounds initialDelay maxDelay expBase jitter k (rand k)
      (hr0 k) (hr1 k) hini hmax

/-- Witness for C5: one rate-limit failure then success, within the 3-retry
budget. -/
theorem with_retry_contract_witness :
    (withRetryRun (fun k => if k = 0 then Outcome.retryable "rate limit"
        else Outcome.ok 42) (fun _ => 1/2) 3 1 10 2 true).invocations ≤ 4 :=
  (with_retry_contract _ _ 3 1 10 2 true (fun _ => by norm_num)
    (fun _ => by norm_num) (by norm_num) (by norm_num)).1



/-! ## Circuit breaker (`service/core/retry_policy.py:196-323`) -/

/-- The mutable state of a `CircuitBreaker` instance. -/
structure CircuitBreaker where
  failureThreshold : ℕ
  timeoutSeconds : ℚ
  failureCount : ℕ
  lastFailureTime : Option ℚ
  state : String
deriving DecidableEq

/-- `CircuitBreaker.__init__`; the `or`-defaulting mirrors
`failure_threshold or settings.failure_threshold`. -/
def CircuitBreaker.init (failureThreshold : Option ℕ) (timeoutSeconds : Option ℚ)
    (st : Settings) : CircuitBreaker :=
  { failureThreshold := pyOrNat failureThreshold st.failureThreshold
    timeoutSeconds := pyOrRat timeoutSeconds st.circuitTimeout
    failureCount := 0
    lastFailureTime := none
    state := "closed" }

/-- `CircuitBreaker._should_attempt_reset`. -/
def shouldAttemptReset (cb : CircuitBreaker) (now : ℚ) : Bool :=
  if cb.state ≠ "open" then false
  else match cb.lastFailureTime with
    | none => false
    | some t => decide (cb.timeoutSeconds ≤ now - t)

/-- `CircuitBreaker._record_failure`: increment the counter, stamp the
failure time, and open the circuit when the counter reaches the threshold. -/
def recordFailure (cb : CircuitBreaker) (now : ℚ) : CircuitBreaker :=
  if cb.failureThreshold ≤ cb.failureCount + 1 then
    { cb with
        failureCount := cb.failureCount + 1
        lastFailureTime := some now
        state := "open" }
  else
    { cb with
        failureCount := cb.failureCount + 1
        lastFailureTime := some now }

/-- Whether the wrapped coroutine returns or raises. -/
inductive CallOutcome where
  | success
  | failure
deriving DecidableEq

/-- What `CircuitBreaker.call` does: fail fast while open, return the
result, or re-raise the wrapped function's exception. -/
inductive CallResult where
  | blocked
  | returned
  | raised
deriving DecidableEq

/-- The body of `CircuitBreaker.call` after the reset-attempt check: block
while open, reset on a half-open success, record failures. -/
def callRun (cb1 : CircuitBreaker) (now : ℚ) (outcome : CallOutcome) :
    CircuitBreaker × CallResult :=
  if cb1.state = "open" then (cb1, CallResult.blocked)
  else match outcome with
  | CallOutcome.success =>
    if cb1.state = "half_open" then
      ({ cb1 with
          state := "closed"
          failureCount := 0
          lastFailureTime := none },
        CallResult.returned)
    else (cb1, CallResult.returned)
  | CallOutcome.failure => (recordFailure cb1 now, CallResult.raised)

/-- `CircuitBreaker.call` (retry_policy.py:234-283): possibly transition
open -> half_open after the timeout, then run the guarded call. -/
def CircuitBreaker.callStep (cb : CircuitBreaker) (now : ℚ) (outcome : CallOutcome) :
    CircuitBreaker × CallResult :=
  if shouldAttemptReset cb now then
    callRun { cb with state := "half_open" } now outcome
  else
    callRun cb now outcome

/-- `CircuitBreaker.reset`. -/
def CircuitBreaker.resetStep (cb : CircuitBreaker) : CircuitBreaker :=
  { cb with
      state := "closed"
      failureCount := 0
      lastFailureTime := none }

/-- One operation on a breaker instance. -/
inductive CBOp where
  | call (now : ℚ) (outcome : CallOutcome)
  | reset

/-- State after one operation. -/
def applyOp (cb : CircuitBreaker) (op : CBOp) : CircuitBreaker :=
  match op with
  | CBOp.call now outcome => (cb.callStep now outcome).1
  | CBOp.reset => cb.resetStep

/-- Breaker states reachable from `__init__` through `call`/`reset`. -/
inductive CBReachable (st : Settings) : CircuitBreaker → Prop where
  | init (th : Option ℕ) (tmo : Option ℚ) : CBReachable st (CircuitBreaker.init th tmo st)
  | step (cb : CircuitBreaker) (op : CBOp) :
      CBReachable st cb → CBReachable st (applyOp cb op)

lemma shouldAttemptReset_false (cb : CircuitBreaker) (now : ℚ)
    (h : cb.state ≠ "open") : shouldAttemptReset cb now = false := by
  unfold shouldAttemptReset
  rw [if_pos h]

lemma callRun_cases (cb1 : CircuitBreaker) (now : ℚ) (outcome : CallOutcome) :
    (cb1.state = "open" ∧ callRun cb1 now outcome = (cb1, CallResult.blocked)) ∨
    (cb1.state ≠ "open" ∧ outcome = CallOutcome.success ∧ cb1.state = "half_open" ∧
      callRun cb1 now outcome =
        ({ cb1 with
            state := "closed"
            failureCount := 0
            lastFailureTime := none },
          CallResult.returned)) ∨
    (cb1.state ≠ "open" ∧ outcome = CallOutcome.success ∧ cb1.state ≠ "half_open" ∧
      callRun cb1 now outcome = (cb1, CallResult.returned)) ∨
    (cb1.state ≠ "open" ∧ outcome = CallOutcome.failure ∧
      callRun cb1 now outcome = (recordFailure cb1 now, CallResult.raised)) := by
  unfold callRun
  by_cases ho : cb1.state = "open"
  · exact Or.inl ⟨ho, by rw [if_pos ho]⟩
  · rw [if_neg ho]
    cases outcome with
    | success =>
      by_cases hh : cb1.state = "half_open"
      · exact Or.inr (Or.inl ⟨ho, rfl, hh, by rw [if_pos hh]⟩)
      · exact Or.inr (Or.inr (Or.inl ⟨ho, rfl, hh, by rw [if_neg hh]⟩))
    | failure => exact Or.inr (Or.inr (Or.inr ⟨ho, rfl, rfl⟩))

lemma recordFailure_facts (cb : CircuitBreaker) (now : ℚ) :
    ((recordFailure cb now).state = "open" ↔
      cb.failureThreshold ≤ cb.failureCount + 1 ∨ cb.state = "open") ∧
    (recordFailure cb now).failureCount = cb.failureCount + 1 ∧
    (recordFailure cb now).lastFailureTime = some now ∧
    (recordFailure cb now).failureThreshold = cb.failureThreshold := by
  unfold recordFailure
  split_ifs with h
  · exact ⟨⟨fun _ => Or.inl h, fun _ => rfl⟩, rfl, rfl, rfl⟩
  · refine ⟨⟨fun h2 => Or.inr h2, ?_⟩, rfl, rfl, rfl⟩
    rintro (h2 | h2)
    · exact absurd h2 h
    · exact h2

/-- The C6 invariant of a single breaker state. -/
def openInvariant (cb : CircuitBreaker) : Prop :=
  cb.state = "open" → cb.failureThreshold ≤ cb.failureCount ∧ cb.lastFailureTime ≠ none

lemma callRun_preserves_openInvariant (cb1 : CircuitBreaker) (now : ℚ)
    (outcome : CallOutcome) (ih : openInvariant cb1) :
    openInvariant (callRun cb1 now outcome).1 := by
  rcases callRun_cases cb1 now outcome with ⟨ho, he⟩ | ⟨ho, hoc, hh, he⟩ |
    ⟨ho, hoc, hh, he⟩ | ⟨ho, hoc, he⟩ <;> rw [he] <;> intro h
  · exact ih h
  · simp at h
  · exact absurd h ho
  · dsimp only at h ⊢
    rcases (recordFailure_facts cb1 now).1.mp h with h2 | h2
    · constructor
      · rw [(recordFailure_facts cb1 now).2.2.2, (recordFailure_facts cb1 now).2.1]
        exact h2
      · rw [(recordFailure_facts cb1 now).2.2.1]
        simp
    · exact absurd h2 ho

lemma callStep_preserves_openInvariant (cb : CircuitBreaker) (now : ℚ)
    (outcome : CallOutcome) (ih : openInvariant cb) :
    openInvariant (cb.callStep now outcome).1 := by
  unfold CircuitBreaker.callStep
  split_ifs with hsar
  · refine callRun_preserves_openInvariant _ now outcome ?_
    intro h
    simp at h
  · exact callRun_preserves_openInvariant cb now outcome ih

lemma applyOp_open_char (cb : CircuitBreaker) (op : CBOp)
    (hno : cb.state ≠ "open") (hop : (applyOp cb op).state = "open") :
    ∃ now, op = CBOp.call now CallOutcome.failure ∧
      (applyOp cb op).failureCount = cb.failureCount + 1 ∧
      cb.failureThreshold ≤ (applyOp cb op).failureCount ∧
      (applyOp cb op).lastFailureTime = some now := by
  cases op with
  | reset => exact absurd hop (by simp [applyOp, CircuitBreaker.resetStep])
  | call now outcome =>
    have hsar := shouldAttemptReset_false cb now hno
    have happ : applyOp cb (CBOp.call now outcome) = (callRun cb now outcome).1 := by
      unfold applyOp CircuitBreaker.callStep
      dsimp only
      rw [hsar]
      simp
    rw [happ] at hop ⊢
    rcases callRun_cases cb now outcome with ⟨ho, he⟩ | ⟨ho, hoc, hh, he⟩ |
      ⟨ho, hoc, hh, he⟩ | ⟨ho, hoc, he⟩
    · exact absurd ho hno
    · rw [he] at hop
      simp at hop
    · rw [he] at hop
      exact absurd hop hno
    · subst hoc
      rw [he] at hop ⊢
      dsimp only at hop ⊢
      rcases (recordFailure_facts cb now).1.mp hop with h | h
      · refine ⟨now, rfl, (recordFailure_facts cb now).2.1, ?_,
          (recordFailure_facts cb now).2.2.1⟩
        rw [(recordFailure_facts cb now).2.1]
        exact h
      · exact absurd h hno

/-- Claim C6: in every reachable breaker state, `state = "open"` implies
`failure_count >= failure_threshold` with `last_failure_time` set; and the
only transition into `"open"` from a non-open state is a call whose wrapped
function fails, incrementing the counter to at least the threshold and
recording the failure time. -/
theorem breaker_open_invariant
    (st : Settings) (cb : CircuitBreaker) (hreach : CBReachable st cb) :
    (cb.state = "open" →
      cb.failureThreshold ≤ cb.failureCount ∧ cb.lastFailureTime ≠ none) ∧
    (∀ op, cb.state ≠ "open" → (applyOp cb op).state = "open" →
      ∃ now, op = CBOp.call now CallOutcome.failure ∧
        (applyOp cb op).failureCount = cb.failureCount + 1 ∧
        cb.failureThreshold ≤ (applyOp cb op).failureCount ∧
        (applyOp cb op).lastFailureTime = some now) := by
  refine ⟨?_, fun op hno => applyOp_open_char cb op hno⟩
  induction hreach with
  | init th tmo =>
    intro h
    exact absurd h (by simp [CircuitBreaker.init])
  | step cb2 op ih ih2 =>
    cases op with
    | reset =>
      intro h
      exact absurd h (by simp [applyOp, CircuitBreaker.resetStep])
    | call now outcome =>
      exact callStep_preserves_openInvariant cb2 now outcome ih2



/-- A concrete reachable open breaker (threshold 1, one failed call). -/
def breakerOpenW : CircuitBreaker :=
  applyOp (CircuitBreaker.init (some 1) none {}) (CBOp.call 0 CallOutcome.failure)

/-- Witness for C6. -/
theorem breaker_open_invariant_witness :
    breakerOpenW.failureThreshold ≤ breakerOpenW.failureCount ∧
    breakerOpenW.lastFailureTime ≠ none :=
  (breaker_open_invariant {} breakerOpenW
    (CBReachable.step _ _ (CBReachable.init (some 1) none))).1 (by decide)

/-- Claim C9: a successful call through a closed breaker returns the result
and leaves the breaker record unchanged (failure count and last failure time
included); and on any breaker, the failure counter decreases only through
`reset()` or a successful call made in the (effective) half-open state - so
failures accumulate toward the threshold across interleaved successes. -/
theorem closed_success_frame
    (cb cb2 : CircuitBreaker) (now : ℚ) (op : CBOp)
    (hclosed : cb.state = "closed") :
    (cb.callStep now CallOutcome.success).1 = cb ∧
    (cb.callStep now CallOutcome.success).2 = CallResult.returned ∧
    ((applyOp cb2 op).failureCount < cb2.failureCount →
      op = CBOp.reset ∨
      ∃ n, op = CBOp.call n CallOutcome.success ∧
        (if shouldAttemptReset cb2 n then "half_open" else cb2.state) = "half_open") := by
  have hno : cb.state ≠ "open" := by rw [hclosed]; decide
  have hnh : cb.state ≠ "half_open" := by rw [hclosed]; decide
  have hframe : cb.callStep now CallOutcome.success = (cb, CallResult.returned) := by
    unfold CircuitBreaker.callStep
    rw [shouldAttemptReset_false cb now hno]
    simp only [Bool.false_eq_true, if_false]
    unfold callRun
    rw [if_neg hno]
    rw [if_neg hnh]
  refine ⟨by rw [hframe], by rw [hframe], ?_⟩
  intro hdec
  cases op with
  | reset => exact Or.inl rfl
  | call n outcome =>
    right
    by_cases hsar : shouldAttemptReset cb2 n
    · have happ : applyOp cb2 (CBOp.call n outcome) =
          (callRun { cb2 with state := "half_open" } n outcome).1 := by
        unfold applyOp CircuitBreaker.callStep
        dsimp only
        rw [hsar]
        simp
      rw [happ] at hdec
      rcases callRun_cases { cb2 with state := "half_open" } n outcome with
        ⟨ho, he⟩ | ⟨ho, hoc, hh, he⟩ | ⟨ho, hoc, hh, he⟩ | ⟨ho, hoc, he⟩
      · simp at ho
      · subst hoc
        exact ⟨n, rfl, by rw [if_pos hsar]⟩
      · exact absurd rfl hh
      · subst hoc
        rw [he] at hdec
        dsimp only at hdec
        rw [(recordFailure_facts _ n).2.1] at hdec
        simp at hdec
    · have happ : applyOp cb2 (CBOp.call n outcome) = (callRun cb2 n outcome).1 := by
        unfold applyOp CircuitBreaker.callStep
        dsimp only
        simp [hsar]
      rw [happ] at hdec
      rcases callRun_cases cb2 n outcome with
        ⟨ho, he⟩ | ⟨ho, hoc, hh, he⟩ | ⟨ho, hoc, hh, he⟩ | ⟨ho, hoc, he⟩
      · rw [he] at hdec
        exact absurd hdec (lt_irrefl _)
      · subst hoc
        exact ⟨n, rfl, by rw [if_neg hsar]; exact hh⟩
      · rw [he] at hdec
        exact absurd hdec (lt_irrefl _)
      · subst hoc
        rw [he] at hdec
        dsimp only at hdec
        rw [(recordFailure_facts _ n).2.1] at hdec
        omega

/-- A closed breaker with two accumulated failures. -/
def closedFrameW : CircuitBreaker :=
  { failureThreshold := 5
    timeoutSeconds := 300
    failureCount := 2
    lastFailureTime := some 10
    state := "closed" }

/-- Witness for C9: a success at a closed breaker with 2 prior failures
changes nothing. -/
theorem closed_success_frame_witness :
    (closedFrameW.callStep 100 CallOutcome.success).1 = closedFrameW :=
  (closed_success_frame closedFrameW closedFrameW 100 CBOp.reset rfl).1




/-! ## Order executor (`service/core/order_executor.py`) -/

/-- The externally visible effects of `OrderExecutor._execute_single_order`:
audit-row insert (`log_trade_attempt`), audit-row update
(`update_trade_result`), metric recording, circuit-breaker persistence
(`update_circuit_breaker`), and alerts. -/
inductive ExecEffect where
  | logTradeAttempt (masterOrderId clientAccountId : String)
  | updateTradeResult (status : String) (latencyMs : ℤ)
  | recordMetric (metricName : String) (value : ℤ)
  | updateCircuitBreaker (clientAccountId cbState : String) (incrementFailures : Bool)
  | alertCircuitBreakerOpened (clientAccountId : String)
  | alertLatencyExceeded (latencyMs : ℤ)
deriving DecidableEq

/-- One run of `_execute_single_order` for a client: the `perf_counter`
instants at function entry (`start_time`, line 248), at the end of the
audit-row insert, and at the terminal outcome of the breaker call; whether
the audit insert succeeded (`audit_log_id` in scope) and whether the
submission succeeded; and the in-memory breaker state observed at line 348
after a failure. -/
structure ExecParams where
  masterOrderId : String
  clientAccountId : String
  tStart : ℚ
  tAuditDone : ℚ
  tOutcome : ℚ
  auditInsertOk : Bool
  submitOk : Bool
  breakerStateAfter : String
deriving DecidableEq

/-- `int((time.perf_counter() - start_time) * 1000)` between two instants in
seconds. -/
def pyLatencyMs (t0 t1 : ℚ) : ℤ := pyInt ((t1 - t0) * 1000)

/-- The effect trace of `_execute_single_order` (order_executor.py:216-367).
The recorded latency is always measured from `tStart` - the timer set at
line 248 BEFORE `log_trade_attempt` - to the terminal outcome. -/
def executeSingleOrderEffects (st : Settings) (p : ExecParams) : List ExecEffect :=
  if p.auditInsertOk then
    if p.submitOk then
      [ExecEffect.logTradeAttempt p.masterOrderId p.clientAccountId,
        ExecEffect.updateTradeResult "success" (pyLatencyMs p.tStart p.tOutcome)] ++
      (if st.latencyCriticalThreshold < pyLatencyMs p.tStart p.tOutcome
        then [ExecEffect.alertLatencyExceeded (pyLatencyMs p.tStart p.tOutcome)] else []) ++
      [ExecEffect.recordMetric "replication_latency_ms" (pyLatencyMs p.tStart p.tOutcome)]
    else
      [ExecEffect.logTradeAttempt p.masterOrderId p.clientAccountId,
        ExecEffect.updateTradeResult "failed" (pyLatencyMs p.tStart p.tOutcome)] ++
      (if p.breakerStateAfter = "open"
        then [ExecEffect.updateCircuitBreaker p.clientAccountId "open" true,
          ExecEffect.alertCircuitBreakerOpened p.clientAccountId]
        else [])
  else
    (if p.breakerStateAfter = "open"
      then [ExecEffect.updateCircuitBreaker p.clientAccountId "open" true,
        ExecEffect.alertCircuitBreakerOpened p.clientAccountId]
      else [])

/-! ## Key-store client table (`service/storage/key_store.py`) -/

/-- A `client_accounts` row, the fields the claims touch. -/
structure ClientRow where
  accountId : String
  isActive : Bool
  circuitBreakerState : String
  failureCount : ℕ
  lastFailureTime : Option ℚ
deriving DecidableEq

/-- `KeyStore.get_all_active_clients` (key_store.py:208-235): active clients
whose persisted breaker state is `"closed"`. -/
def getAllActiveClients (tbl : List ClientRow) : List ClientRow :=
  tbl.filter (fun c => c.isActive && c.circuitBreakerState = "closed")

/-- `KeyStore.update_circuit_breaker` (key_store.py:237-289). -/
def updateCircuitBreakerStore (tbl : List ClientRow) (accountId cbState : String)
    (incrementFailures : Bool) (now : ℚ) : List ClientRow :=
  tbl.map (fun c =>
    if c.accountId = accountId then
      if incrementFailures then
        { c with
            circuitBreakerState := cbState
            failureCount := c.failureCount + 1
            lastFailureTime := some now }
      else if cbState = "closed" then
        { c with
            circuitBreakerState := cbState
            failureCount := 0
            lastFailureTime := none }
      else
        { c with circuitBreakerState := cbState }
    else c)

/-- A sequence of breaker persists as the executor issues them - always with
state `"open"` (each element: account id, `increment_failures`, timestamp). -/
def applyExecutorBreakerUpdates (tbl : List ClientRow)
    (us : List (String × Bool × ℚ)) : List ClientRow :=
  us.foldl (fun t u => updateCircuitBreakerStore t u.1 "open" u.2.1 u.2.2) tbl

lemma updateStore_open_marks (tbl : List ClientRow) (aid : String) (inc : Bool)
    (now : ℚ) (c : ClientRow)
    (hc : c ∈ updateCircuitBreakerStore tbl aid "open" inc now)
    (hid : c.accountId = aid) : c.circuitBreakerState = "open" := by
  unfold updateCircuitBreakerStore at hc
  obtain ⟨c0, hc0, heq⟩ := List.mem_map.mp hc
  by_cases h0 : c0.accountId = aid
  · rw [if_pos h0] at heq
    split_ifs at heq <;> simp [← heq]
  · rw [if_neg h0] at heq
    rw [← heq] at hid
    exact absurd hid h0

lemma updateStore_open_keeps (tbl : List ClientRow) (aid aid2 : String) (inc : Bool)
    (now : ℚ)
    (hall : ∀ c ∈ tbl, c.accountId = aid → c.circuitBreakerState = "open") :
    ∀ c ∈ updateCircuitBreakerStore tbl aid2 "open" inc now,
      c.accountId = aid → c.circuitBreakerState = "open" := by
  intro c hc hid
  unfold updateCircuitBreakerStore at hc
  obtain ⟨c0, hc0, heq⟩ := List.mem_map.mp hc
  by_cases h0 : c0.accountId = aid2
  · rw [if_pos h0] at heq
    split_ifs at heq <;> simp [← heq]
  · rw [if_neg h0] at heq
    rw [← heq] at hid ⊢
    exact hall c0 hc0 hid

lemma applyUpdates_open_keeps (us : List (String × Bool × ℚ)) :
    ∀ (tbl : List ClientRow) (aid : String),
      (∀ c ∈ tbl, c.accountId = aid → c.circuitBreakerState = "open") →
      ∀ c ∈ applyExecutorBreakerUpdates tbl us,
        c.accountId = aid → c.circuitBreakerState = "open" := by
  induction us with
  | nil => intro tbl aid hall c hc; exact hall c hc
  | cons u rest ih =>
    intro tbl aid hall c hc
    exact ih _ aid (updateStore_open_keeps tbl aid u.1 u.2.1 u.2.2 hall) c hc

/-- Claim C8: every `update_circuit_breaker` effect the executor emits
carries state `"open"` (the sole call site is order_executor.py:349), and
once a client's persisted state is set to `"open"`, that client is excluded
from `get_all_active_clients` after any further executor-issued updates,
since those are all `"open"` as well. -/
theorem executor_persists_only_open
    (st : Settings) (p : ExecParams) (cid s : String) (inc : Bool)
    (tbl : List ClientRow) (accountId : String) (inc2 : Bool) (now : ℚ)
    (us : List (String × Bool × ℚ)) (c : ClientRow)
    (hmem : ExecEffect.updateCircuitBreaker cid s inc ∈ executeSingleOrderEffects st p)
    (hc : c ∈ getAllActiveClients
      (applyExecutorBreakerUpdates
        (updateCircuitBreakerStore tbl accountId "open" inc2 now) us)) :
    s = "open" ∧ c.accountId ≠ accountId := by
  constructor
  · unfold executeSingleOrderEffects at hmem
    split_ifs at hmem <;> simp at hmem <;> tauto
  · obtain ⟨hcm, hcf⟩ := List.mem_filter.mp hc
    intro hid
    have hopen : c.circuitBreakerState = "open" :=
      applyUpdates_open_keeps us _ accountId
        (fun c2 hc2 hid2 => updateStore_open_marks tbl accountId inc2 now c2 hc2 hid2)
        c hcm hid
    simp [hopen] at hcf

/-- Witness run for C8: audit insert failed and the in-memory breaker is
open, so the executor persists `"open"` for client `"A"`. -/
def execEffectsW : ExecParams :=
  { masterOrderId := "M1"
    clientAccountId := "A"
    tStart := 0
    tAuditDone := 1/200
    tOutcome := 3/200
    auditInsertOk := false
    submitOk := false
    breakerStateAfter := "open" }

/-- Witness for C8: client `"B"` stays eligible, client `"A"` is excluded. -/
theorem executor_persists_only_open_witness :
    "open" = "open" ∧
    (⟨"B", true, "closed", 0, none⟩ : ClientRow).accountId ≠ "A" :=
  executor_persists_only_open {} execEffectsW "A" "open" true
    [⟨"A", true, "closed", 0, none⟩, ⟨"B", true, "closed", 0, none⟩]
    "A" true 0 [] ⟨"B", true, "closed", 0, none⟩
    (by with_unfolding_all decide) (by with_unfolding_all decide)

/-- Counterexample run for C3: the audit insert takes 5 ms
(`tStart = 0 s`, `tAuditDone = 0.005 s`) and the attempt ends at 0.015 s. -/
def latencyCexP : ExecParams :=
  { masterOrderId := "M1"
    clientAccountId := "C1"
    tStart := 0
    tAuditDone := 1/200
    tOutcome := 3/200
    auditInsertOk := true
    submitOk := true
    breakerStateAfter := "closed" }

/-- Counterexample to C3 as stated: the audit row and the metric record a
latency of 15 ms - the wall clock from `start_time` (set before the
audit-row insert) to the outcome - not the 10 ms measured from the end of
the audit insert that the claim requires; the 5 ms audit insert is included. -/
theorem latency_timer_cex :
    ExecEffect.updateTradeResult "success"
        (pyLatencyMs latencyCexP.tAuditDone latencyCexP.tOutcome)
      ∉ executeSingleOrderEffects {} latencyCexP ∧
    ExecEffect.updateTradeResult "success" 15 ∈ executeSingleOrderEffects {} latencyCexP ∧
    ExecEffect.recordMetric "replication_latency_ms" 15
      ∈ executeSingleOrderEffects {} latencyCexP ∧
    pyLatencyMs latencyCexP.tAuditDone latencyCexP.tOutcome = 10 ∧
    pyLatencyMs latencyCexP.tStart latencyCexP.tAuditDone = 5 := by
  with_unfolding_all decide

lemma pyInt_mono_nonneg (x y : ℚ) (hx : 0 ≤ x) (hxy : x ≤ y) : pyInt x ≤ pyInt y := by
  unfold pyInt
  rw [if_pos hx, if_pos (le_trans hx hxy)]
  exact Int.floor_le_floor hxy

/-- Claim C3 (amended): the latency recorded in the audit row and in the
`replication_latency_ms` metric equals the wall-clock time from the START of
the client attempt (the timer at order_executor.py:248, set before the
pending audit-row insert) to the terminal outcome, so it INCLUDES the time
spent inserting the audit row and is at least the insert-to-outcome time. -/
theorem latency_includes_audit_insert
    (st : Settings) (p : ExecParams)
    (h1 : p.auditInsertOk = true) (h2 : p.submitOk = true)
    (h3 : p.tStart ≤ p.tAuditDone) (h4 : p.tAuditDone ≤ p.tOutcome) :
    ExecEffect.updateTradeResult "success" (pyLatencyMs p.tStart p.tOutcome)
      ∈ executeSingleOrderEffects st p ∧
    ExecEffect.recordMetric "replication_latency_ms" (pyLatencyMs p.tStart p.tOutcome)
      ∈ executeSingleOrderEffects st p ∧
    pyLatencyMs p.tAuditDone p.tOutcome ≤ pyLatencyMs p.tStart p.tOutcome := by
  refine ⟨?_, ?_, ?_⟩
  · unfold executeSingleOrderEffects
    rw [h1, h2]
    simp
  · unfold executeSingleOrderEffects
    rw [h1, h2]
    simp
  · unfold pyLatencyMs
    refine pyInt_mono_nonneg _ _ ?_ ?_
    · nlinarith
    · nlinarith

/-- Witness run for the amended C3. -/
def latencyAmendedW : ExecParams :=
  { masterOrderId := "M1"
    clientAccountId := "C1"
    tStart := 0
    tAuditDone := 1/200
    tOutcome := 3/200
    auditInsertOk := true
    submitOk := true
    breakerStateAfter := "closed" }

/-- Witness for the amended C3. -/
theorem latency_includes_audit_insert_witness :
    ExecEffect.updateTradeResult "success"
        (pyLatencyMs latencyAmendedW.tStart latencyAmendedW.tOutcome)
      ∈ executeSingleOrderEffects {} latencyAmendedW :=
  (latency_includes_audit_insert {} latencyAmendedW rfl rfl
    (by norm_num [latencyAmendedW]) (by norm_num [latencyAmendedW])).1




/-! ## Deduplication cache (`KeyStore.check_duplicate_event`,
key_store.py:384-433) -/

/-- A `deduplication_cache` row. -/
structure DedupEntry where
  eventId : String
  eventType : String
  contentHash : String
  expiresAt : ℤ
deriving DecidableEq

/-- An event payload dict; the SHA-256 `content_hash` of
`str(sorted(event_data.items()))` is abstracted as a function
`hsh : EventData -> String` of the payload, which is all the claims use. -/
abbrev EventData := List (String × String)

/-- Python `event_data.get(key, default)`. -/
def dictGetD (l : EventData) (k d : String) : String :=
  match l.find? (fun p => p.1 = k) with
  | some p => p.2
  | none => d

/-- An entry survives the `expires_at < now` delete. -/
def liveAt (now : ℤ) (e : DedupEntry) : Bool := !(e.expiresAt < now)

/-- The duplicate test `event_id == eid OR content_hash == hash`. -/
def entryMatches (eid h : String) (e : DedupEntry) : Bool :=
  e.eventId = eid || e.contentHash = h

/-- The table after the expired-entry delete. -/
def liveEntries (store : List DedupEntry) (now : ℤ) : List DedupEntry :=
  store.filter (liveAt now)

/-- The rows the duplicate `select` returns. -/
def matchingEntries (hsh : EventData → String) (store : List DedupEntry) (now : ℤ)
    (eventId : String) (eventData : EventData) : List DedupEntry :=
  (liveEntries store now).filter (entryMatches eventId (hsh eventData))

/-- The entry inserted on a miss: `expires_at = now + timedelta(hours=24)`. -/
def newDedupEntry (hsh : EventData → String) (now : ℤ) (eventId : String)
    (eventData : EventData) : DedupEntry :=
  { eventId := eventId
    eventType := dictGetD eventData "event" "unknown"
    contentHash := hsh eventData
    expiresAt := now + 86400 }

/-- `KeyStore.check_duplicate_event`: delete expired rows, query matches with
`scalar_one_or_none` - which raises `MultipleResultsFound` when more than one
row matches (modelled as `Except.error`) - and on a miss commit the deletion
plus a fresh entry. On the duplicate path the method returns without
`session.commit()`, so the in-transaction delete is rolled back and the
stored table is unchanged. -/
def checkDuplicateEvent (hsh : EventData → String) (store : List DedupEntry)
    (now : ℤ) (eventId : String) (eventData : EventData) :
    Except Unit (Bool × List DedupEntry) :=
  match matchingEntries hsh store now eventId eventData with
  | [] => Except.ok (false,
      liveEntries store now ++ [newDedupEntry hsh now eventId eventData])
  | [_] => Except.ok (true, store)
  | _ :: _ :: _ => Except.error ()

/-- Counterexample store for C2: two live entries, one matching by
`event_id` and another by `content_hash`. -/
def dedupCexStore : List DedupEntry :=
  [⟨"e1", "fill", "h1", 100⟩, ⟨"e2", "fill", "h2", 100⟩]

def dedupCexHash : EventData → String := fun _ => "h2"

/-- Counterexample to C2 as stated: a live entry matching the incoming
event exists (`e1` by event id and `e2` by content hash), yet the call does
not return `True` - `scalar_one_or_none` raises `MultipleResultsFound`
because two rows match. -/
theorem dedup_multi_match_cex :
    checkDuplicateEvent dedupCexHash dedupCexStore 0 "e1" [] = Except.error () ∧
    (liveEntries dedupCexStore 0).any
      (entryMatches "e1" (dedupCexHash [])) = true :=
  ⟨rfl, rfl⟩

/-- Claim C2 (amended): provided at most one live entry matches the incoming
`(event_id, content_hash)` pair, a sequential `check_duplicate_event` call
removes expired entries first, returns `True` iff a non-expired entry matches
by `event_id` or by content hash (leaving the store unchanged, as the
duplicate path never commits), and on a miss inserts an entry expiring
24 hours later and returns `False`; consequently the same event delivered
twice within 24 hours gets `False` then `True`. When an `event_id` match and
a distinct `content_hash` match coexist the call instead raises
`MultipleResultsFound`. -/
theorem check_duplicate_event_amended
    (hsh : EventData → String) (store : List DedupEntry) (now : ℤ)
    (eventId : String) (eventData : EventData) :
    ((matchingEntries hsh store now eventId eventData).length ≤ 1 →
      checkDuplicateEvent hsh store now eventId eventData =
        if (matchingEntries hsh store now eventId eventData).isEmpty then
          Except.ok (false,
            liveEntries store now ++ [newDedupEntry hsh now eventId eventData])
        else Except.ok (true, store)) ∧
    (matchingEntries hsh store now eventId eventData = [] →
      ∀ now2, now ≤ now2 → now2 ≤ now + 86400 →
        checkDuplicateEvent hsh
            (liveEntries store now ++ [newDedupEntry hsh now eventId eventData])
            now2 eventId eventData =
          Except.ok (true,
            liveEntries store now ++ [newDedupEntry hsh now eventId eventData])) := by
  constructor
  · intro hlen
    unfold checkDuplicateEvent
    cases hm : matchingEntries hsh store now eventId eventData with
    | nil => simp [hm]
    | cons x rest =>
      cases rest with
      | nil => simp [hm]
      | cons y rest2 => rw [hm] at hlen; simp at hlen
  · intro hm now2 h1 h2
    have hlive : liveAt now2 (newDedupEntry hsh now eventId eventData) = true := by
      unfold liveAt newDedupEntry
      simp
      omega
    have hmatch : entryMatches eventId (hsh eventData)
        (newDedupEntry hsh now eventId eventData) = true := by
      unfold entryMatches newDedupEntry
      simp
    unfold matchingEntries at hm
    have hall := List.filter_eq_nil_iff.mp hm
    have hnone : ∀ e ∈ liveEntries store now,
        entryMatches eventId (hsh eventData) e = false := by
      intro e he
      by_contra hcon
      simp at hcon
      exact hall e he hcon
    have hm2 : matchingEntries hsh
        (liveEntries store now ++ [newDedupEntry hsh now eventId eventData])
        now2 eventId eventData = [newDedupEntry hsh now eventId eventData] := by
      unfold matchingEntries liveEntries
      rw [List.filter_append, List.filter_append]
      have hsub : ((liveEntries store now).filter (liveAt now2)).filter
          (entryMatches eventId (hsh eventData)) = [] := by
        apply List.filter_eq_nil_iff.mpr
        intro e he
        have hmem := (List.mem_filter.mp he).1
        simp [hnone e hmem]
      unfold liveEntries at hsub
      rw [hsub]
      simp [hlive, hmatch]
    unfold checkDuplicateEvent
    rw [hm2]

/-- Witness for the amended C2: a fresh event is recorded (`False`), and its
redelivery one hour later is reported as a duplicate (`True`). -/
theorem check_duplicate_event_amended_witness :
    checkDuplicateEvent (fun _ => "h") [] 0 "e" [("event", "fill")] =
      Except.ok (false, [⟨"e", "fill", "h", 86400⟩]) ∧
    checkDuplicateEvent (fun _ => "h") [⟨"e", "fill", "h", 86400⟩] 3600 "e"
        [("event", "fill")] =
      Except.ok (true, [⟨"e", "fill", "h", 86400⟩]) := by
  have h := check_duplicate_event_amended (fun _ => "h") [] 0 "e" [("event", "fill")]
  have hstore : liveEntries [] 0 ++ [newDedupEntry (fun _ => "h") 0 "e" [("event", "fill")]] =
      [(⟨"e", "fill", "h", 86400⟩ : DedupEntry)] := by decide
  constructor
  · have h1 := h.1 (by decide)
    rw [h1, hstore]
    rw [if_pos (by decide)]
  · have h2 := h.2 (by decide) 3600 (by decide) (by decide)
    rw [hstore] at h2
    exact h2

/-! ## WebSocket listener (`service/core/websocket_listener.py`) -/

/-- The `order` object of an Alpaca trade update. -/
structure OrderData where
  id : String
  symbol : String
  side : String
  otype : String
  qty : Option ℚ
  filledQty : Option ℚ
  filledAvgPrice : Option ℚ
  limitPrice : Option ℚ
  stopPrice : Option ℚ
  status : String
deriving DecidableEq

/-- A raw trade-update event from the stream. -/
structure TradeUpdate where
  event : String
  order : OrderData
  timestamp : String
deriving DecidableEq

/-- The standardized dict `_parse_trade_event` builds for a fill. -/
structure ParsedEvent where
  eventId : String
  eventType : String
  orderId : String
  symbol : String
  side : String
  orderType : String
  qty : ℚ
  filledQty : ℚ
  filledAvgPrice : Option ℚ
  limitPrice : Option ℚ
  stopPrice : Option ℚ
  timestamp : String
  status : String
deriving DecidableEq

/-- `float(x) if x else 0.0`. -/
def pyFloatOrZero : Option ℚ → ℚ
  | none => 0
  | some q => q

/-- `float(x) if x else None` (a `0.0` price is falsy). -/
def pyPriceOrNone : Option ℚ → Option ℚ
  | none => none
  | some q => if q = 0 then none else some q

/-- `WebSocketListener._parse_trade_event` (websocket_listener.py:571-617):
only `fill` events produce a parsed dict; everything else returns `None`. -/
def parseTradeEvent (d : TradeUpdate) : Option ParsedEvent :=
  if d.event ≠ "fill" then none
  else some
    { eventId := d.order.id ++ "_" ++ d.event ++ "_" ++ d.timestamp
      eventType := d.event
      orderId := d.order.id
      symbol := d.order.symbol
      side := d.order.side
      orderType := d.order.otype
      qty := pyFloatOrZero d.order.qty
      filledQty := pyFloatOrZero d.order.filledQty
      filledAvgPrice := pyPriceOrNone d.order.filledAvgPrice
      limitPrice := pyPriceOrNone d.order.limitPrice
      stopPrice := pyPriceOrNone d.order.stopPrice
      timestamp := d.timestamp
      status := d.order.status }

/-- Which downstream calls `_handle_trade_update` makes: the
`check_duplicate_event` idempotency call and the dispatcher callback. -/
structure HandleEffects where
  dedupChecked : Bool
  dispatcherCalled : Bool
deriving DecidableEq

/-- `WebSocketListener._handle_trade_update` (websocket_listener.py:525-549),
reduced to its downstream effects: a `None` parse returns before the dedup
check; a duplicate returns before the dispatcher callback. -/
def handleTradeUpdate (isDuplicate : Bool) (d : TradeUpdate) : HandleEffects :=
  match parseTradeEvent d with
  | none => ⟨false, false⟩
  | some _ => if isDuplicate then ⟨true, false⟩ else ⟨true, true⟩

/-- Claim C7: for every trade update whose `event` field is not `"fill"`,
`_parse_trade_event` returns `None` and `_handle_trade_update` returns
without calling `check_duplicate_event` or the dispatcher callback. -/
theorem nonFill_events_dropped
    (d : TradeUpdate) (isDuplicate : Bool) (h : d.event ≠ "fill") :
    parseTradeEvent d = none ∧
    handleTradeUpdate isDuplicate d = ⟨false, false⟩ := by
  have hp : parseTradeEvent d = none := by
    unfold parseTradeEvent
    rw [if_pos h]
  refine ⟨hp, ?_⟩
  unfold handleTradeUpdate
  rw [hp]

/-- A `partial_fill` lifecycle event. -/
def nonFillW : TradeUpdate :=
  { event := "partial_fill"
    order :=
      { id := "O1"
        symbol := "ABC"
        side := "buy"
        otype := "market"
        qty := some 100
        filledQty := some 40
        filledAvgPrice := some 50
        limitPrice := none
        stopPrice := none
        status := "partially_filled" }
    timestamp := "T1" }

/-- Witness for C7: a `partial_fill` update is dropped before dedup and
dispatch. -/
theorem nonFill_events_dropped_witness :
    parseTradeEvent nonFillW = none ∧
    handleTradeUpdate false nonFillW = ⟨false, false⟩ :=
  nonFill_events_dropped nonFillW false (by decide)

end TradeCopier
